import Mathlib

/-!
# Verification of the UIDAI datathon reconciliation and scoring pipeline

Shallow embedding of `src/analyzer.py`: the chunk loader
(`load_and_combine_chunks`), the domain normalizer (`clean_domain_df`),
the master merger (`load_and_clean_data`, merge + feature steps), the
health scorer (`generate_health_index`) and the gap analyzer
(`analyze_mbu_gap`).

Modelling conventions:
* DataFrames are `List`s of typed row structures; a column that may be
  absent from a table as a whole is tracked by a `Bool` flag on the table.
* Numeric CSV counters are `Nat`; derived ratios and statistics are `ℚ`
  (an exact idealization of the float arithmetic in the code).
* IEEE NaN (produced by `std` of a single observation and propagated by
  pandas arithmetic) is modelled by `Option ℚ` with `none` for NaN.
* `numpy`'s floating square root is taken as an explicit function
  parameter `sqrt : ℚ → ℚ`; theorems quantify over it and only assume
  the facts actually used (for example `sqrt 0 = 0`).
* `sklearn.cluster.KMeans.fit_predict` is an opaque, deterministic
  assignment of a cluster id to each row; it is passed in as a
  `List ℕ` (one id per stats row).  sklearn guarantees that with
  `n_clusters=3` and at least 3 samples every cluster id 0, 1, 2 is
  assigned, which appears as a hypothesis where needed.
* pandas `groupby` sorts group keys; we enumerate keys in first-occurrence
  order instead.  Row order of aggregated tables is irrelevant to every
  property proved here (membership, sums, sortedness of the final sort).
-/

/-! ## String canonicalization (clean_domain_df lines 44-53) -/

/-- One character step of Python `str.title()`: a cased character is
uppercased when the previous character was not alphabetic and lowercased
otherwise; non-alphabetic characters pass through. -/
def titleCaseChar (prevAlpha : Bool) (c : Char) : Char :=
  if c.isAlpha then (if prevAlpha then c.toLower else c.toUpper) else c

/-- `str.title()` over a character list, tracking whether the previous
character was alphabetic. -/
def titleCaseAux : Bool → List Char → List Char
  | _, [] => []
  | prev, c :: cs => titleCaseChar prev c :: titleCaseAux c.isAlpha cs

/-- Model of the pandas `.str.title()` string method. -/
def titleCase (s : String) : String := ⟨titleCaseAux false s.data⟩

/-- Model of the pandas `.str.strip()` string method: drop whitespace
from both ends. -/
def pyStrip (s : String) : String :=
  ⟨((s.data.dropWhile Char.isWhitespace).reverse.dropWhile Char.isWhitespace).reverse⟩

/-- `df['state'].str.title().str.strip()` applied to one value
(analyzer.py line 45). -/
def titleStrip (s : String) : String := pyStrip (titleCase s)

/-- Model of `.str.contains(r'\d', regex=True)`: the string contains a
decimal digit (analyzer.py line 49). -/
def containsDigit (s : String) : Bool := s.data.any Char.isDigit

/-- The fixed historical-to-current region rename table of
analyzer.py line 52, as applied pointwise by `Series.replace`
(exact whole-string match, other strings unchanged). -/
def state_map (s : String) : String :=
  if s = "Westbengal" then "West Bengal"
  else if s = "Orissa" then "Odisha"
  else if s = "Uttaranchal" then "Uttarakhand"
  else if s = "Delhi" then "NCT Of Delhi"
  else s

/-! ## Date parsing (clean_domain_df lines 56-57) -/

/-- Gregorian leap-year rule, as used by pandas date validation. -/
def isLeapYear (y : Nat) : Bool :=
  (y % 4 == 0 && y % 100 != 0) || y % 400 == 0

/-- Number of days of month `m` of year `y`. -/
def daysInMonth (y m : Nat) : Nat :=
  if m = 2 then (if isLeapYear y then 29 else 28)
  else if m = 4 ∨ m = 6 ∨ m = 9 ∨ m = 11 then 30
  else 31

/-- Model of `pd.to_datetime(s, format='%d-%m-%Y', errors='coerce')`
followed by `.dt.to_period('M')`: parse a day-month-year string, return
the `(year, month)` bucket, or `none` (NaT) when the string does not
match the format or is not a valid calendar date. -/
def parseMonth (s : String) : Option (Nat × Nat) :=
  match s.splitOn "-" with
  | [d, m, y] =>
    match d.toNat?, m.toNat?, y.toNat? with
    | some dv, some mv, some yv =>
        if 1 ≤ mv ∧ mv ≤ 12 ∧ 1 ≤ dv ∧ dv ≤ daysInMonth yv mv then
          some (yv, mv)
        else none
    | _, _, _ => none
  | _ => none

/-! ## Domain normalizer: clean_domain_df (lines 29-62)

A raw CSV row after the column-name lowering/renaming of lines 31-42,
which in this typed embedding is the identity on the data content: the
domain-specific age-bracket counters are carried opaquely as a value of
an additive commutative monoid `α` (one `α` per domain schema). -/

structure RawRow (α : Type) where
  state : String
  district : String
  date : String
  pincode : Nat
  counters : α
deriving DecidableEq

/-- A row after state fixing, garbage filtering, remapping and month
derivation, immediately before the groupby-sum of line 62. -/
structure PrepRow (α : Type) where
  state : String
  district : String
  month : Option (Nat × Nat)
  counters : α
deriving DecidableEq

/-- An aggregated (region, sub-region, month) output row of
`clean_domain_df`. -/
structure CleanRow (α : Type) where
  state : String
  district : String
  month : Nat × Nat
  counters : α
deriving DecidableEq

/-- Line 45: `df['state'] = df['state'].str.title().str.strip()` on one
row. -/
def fixStateRow {α : Type} (r : RawRow α) : RawRow α :=
  { r with state := titleStrip r.state }

/-- Line 45 on the whole table. -/
def fixStates {α : Type} (df : List (RawRow α)) : List (RawRow α) :=
  df.map fixStateRow

/-- Line 49: `df = df[~df['state'].str.contains(r'\d', regex=True)]`. -/
def garbageFilter {α : Type} (df : List (RawRow α)) : List (RawRow α) :=
  df.filter fun r => !containsDigit r.state

/-- Line 53: `df['state'] = df['state'].replace(state_map)`. -/
def remapStates {α : Type} (df : List (RawRow α)) : List (RawRow α) :=
  df.map fun r => { r with state := state_map r.state }

/-- Lines 56-57: parse the date column and derive the month bucket. -/
def addMonth {α : Type} (df : List (RawRow α)) : List (PrepRow α) :=
  df.map fun r => ⟨r.state, r.district, parseMonth r.date, r.counters⟩

/-- The grouping keys of line 60-62: distinct (state, district, month)
triples, in first-occurrence order; a row whose month is NaT (`none`)
contributes no key, because pandas `groupby` drops null keys. -/
def aggKeys {α : Type} (df : List (PrepRow α)) : List (String × String × Nat × Nat) :=
  (df.filterMap fun r => r.month.map fun m => (r.state, r.district, m)).dedup

/-- Line 62: `df.groupby(['state','district','month'])[numeric_cols].sum()`
— the numeric columns are exactly the domain counters (`date` and
`pincode` are excluded by line 61). -/
def aggregate {α : Type} [AddCommMonoid α] [DecidableEq α]
    (df : List (PrepRow α)) : List (CleanRow α) :=
  (aggKeys df).map fun k =>
    ⟨k.1, k.2.1, k.2.2,
      ((df.filter fun r =>
          r.state == k.1 && r.district == k.2.1 && r.month == some k.2.2).map
        PrepRow.counters).sum⟩

/-- `clean_domain_df` (lines 29-62): empty input short-circuits
(line 30, the code returns the empty frame unchanged); otherwise fix
states, drop rows whose state contains a digit, remap historical names,
derive the month bucket, and aggregate to district-month grain. -/
def clean_domain_df {α : Type} [AddCommMonoid α] [DecidableEq α]
    (df : List (RawRow α)) : List (CleanRow α) :=
  if df.isEmpty then []
  else aggregate (addMonth (remapStates (garbageFilter (fixStates df))))

/-- Row-at-a-time characterization of the per-row part of
`clean_domain_df`: canonicalize the state, drop the row if the canonical
state contains a digit, otherwise remap the state and parse the date.
Used to state that malformed rows are filtered individually. -/
def prepRow {α : Type} (r : RawRow α) : Option (PrepRow α) :=
  let s := titleStrip r.state
  if containsDigit s then none
  else some ⟨state_map s, r.district, parseMonth r.date, r.counters⟩

/-! ## Source loader: load_and_combine_chunks (lines 15-26) -/

/-- Model of `load_and_combine_chunks`: each file discovered by the glob
is represented by its parse outcome — `some rows` when `pd.read_csv`
succeeds, `none` when it raises and the `except: pass` swallows the
error.  Successfully parsed tables are concatenated; when no file
parses, the explicit empty table of line 25 is returned. -/
def load_and_combine_chunks {α : Type} (files : List (Option (List α))) : List α :=
  let dfs := files.filterMap id
  if dfs.isEmpty then [] else dfs.flatten

/-! ## Sorting

`DataFrame.sort_values` and `Series.sort_values` are modelled by an
insertion sort parametrized by a boolean comparison.  (pandas uses an
unstable quicksort by default; every property proved below is
independent of the order of tied keys, so any sorted permutation is a
faithful model.)  A structurally recursive sort is used so that proofs
and concrete witnesses can evaluate it. -/

def insertSorted {α : Type} (le : α → α → Bool) (x : α) : List α → List α
  | [] => [x]
  | y :: ys => if le x y then x :: y :: ys else y :: insertSorted le x ys

/-- Sort a list so that `le` holds pairwise, by insertion. -/
def sortBy {α : Type} (le : α → α → Bool) : List α → List α
  | [] => []
  | x :: xs => insertSorted le x (sortBy le xs)

/-! ## Master merger: load_and_clean_data, merge and feature steps
(lines 79-103)

The three cleaned domain tables carry canonical column schemas (the
rename tables of lines 34-42): enrolment has `enrol_infant`,
`enrol_child`, `enrol_adult`; biometric has `bio_child`, `bio_adult`;
demographic has `demo_child`, `demo_adult`. -/

/-- The (state, district, month) join key of line 84/89. -/
abbrev MKey := String × String × Nat × Nat

structure EnrolRow where
  key : MKey
  enrol_infant : Nat
  enrol_child : Nat
  enrol_adult : Nat
deriving DecidableEq

structure BioRow where
  key : MKey
  bio_child : Nat
  bio_adult : Nat
deriving DecidableEq

structure DemoRow where
  key : MKey
  demo_child : Nat
  demo_adult : Nat
deriving DecidableEq

/-- A merged master row after `master.fillna(0)` (line 91): all seven
canonical counters are materialized, a domain absent at this key
contributing zeros. -/
structure MasterRow where
  key : MKey
  enrol_infant : Nat
  enrol_child : Nat
  enrol_adult : Nat
  bio_child : Nat
  bio_adult : Nat
  demo_child : Nat
  demo_adult : Nat
deriving DecidableEq

/-- The merged master table.  The `Bool` flags record which domain
column families exist in the merged frame: a domain's columns appear in
`master.columns` exactly when that domain's cleaned table was non-empty
and hence entered a merge branch of lines 80-89. -/
structure MasterTable where
  hasEnrol : Bool
  hasBio : Bool
  hasDemo : Bool
  rows : List MasterRow
deriving DecidableEq

/-- Keys of a pandas outer merge: left keys in order, then the
right-only keys (lines 84 and 89, `how='outer'`). -/
def keysUnion (ks1 ks2 : List MKey) : List MKey :=
  ks1 ++ ks2.filter fun k => !ks1.contains k

/-- The key column of the merged frame, following the branch structure
of lines 80-89: an empty side of a merge is replaced by the other side
rather than joined against. -/
def masterKeys (e : List EnrolRow) (b : List BioRow) (d : List DemoRow) :
    List MKey :=
  let ke := e.map EnrolRow.key
  let kb := b.map BioRow.key
  let kd := d.map DemoRow.key
  let k1 :=
    if ke.isEmpty && !kb.isEmpty then kb
    else if !ke.isEmpty && !kb.isEmpty then keysUnion ke kb
    else ke
  if k1.isEmpty && !kd.isEmpty then kd
  else if !k1.isEmpty && !kd.isEmpty then keysUnion k1 kd
  else k1

/-- Value of the enrolment counters at a key after the outer join and
`fillna(0)`: the first enrolment row with this key, or zeros when the
key is unmatched (its cells were null and line 91 filled them). -/
def lookupEnrol (e : List EnrolRow) (k : MKey) : Nat × Nat × Nat :=
  match e.find? fun r => r.key == k with
  | some r => (r.enrol_infant, r.enrol_child, r.enrol_adult)
  | none => (0, 0, 0)

def lookupBio (b : List BioRow) (k : MKey) : Nat × Nat :=
  match b.find? fun r => r.key == k with
  | some r => (r.bio_child, r.bio_adult)
  | none => (0, 0)

def lookupDemo (d : List DemoRow) (k : MKey) : Nat × Nat :=
  match d.find? fun r => r.key == k with
  | some r => (r.demo_child, r.demo_adult)
  | none => (0, 0)

/-- The merge step of `load_and_clean_data` (lines 79-91): pairwise
outer joins on (state, district, month) with empty-table substitution,
followed by `fillna(0)`.  The pairwise joins followed by the global
zero-fill are modelled as one pass over the union of keys with
zero-defaulting lookups; on tables with unique keys (the grain
guaranteed by `clean_domain_df`'s groupby) these coincide. -/
def merge_master (e : List EnrolRow) (b : List BioRow) (d : List DemoRow) :
    MasterTable :=
  { hasEnrol := !e.isEmpty
    hasBio := !b.isEmpty
    hasDemo := !d.isEmpty
    rows := (masterKeys e b d).map fun k =>
      let ev := lookupEnrol e k
      let bv := lookupBio b k
      let dv := lookupDemo d k
      ⟨k, ev.1, ev.2.1, ev.2.2, bv.1, bv.2, dv.1, dv.2⟩ }

/-- Line 94-95: `total_activity` is the row sum over whichever of the
six canonical child/adult counters are present as columns
(`enrol_infant` is deliberately not in the list `cols`). -/
def total_activity (t : MasterTable) (r : MasterRow) : Nat :=
  (if t.hasEnrol then r.enrol_child else 0) +
  (if t.hasEnrol then r.enrol_adult else 0) +
  (if t.hasBio then r.bio_child else 0) +
  (if t.hasBio then r.bio_adult else 0) +
  (if t.hasDemo then r.demo_child else 0) +
  (if t.hasDemo then r.demo_adult else 0)

/-- Lines 98-101: `mbu_compliance = bio_child / (enrol_child + 1)` when
both columns exist in the merged frame, else the constant 0. -/
def mbu_compliance (t : MasterTable) (r : MasterRow) : ℚ :=
  if t.hasBio && t.hasEnrol then (r.bio_child : ℚ) / ((r.enrol_child : ℚ) + 1)
  else 0

/-! ## Gap analyzer: analyze_mbu_gap (lines 158-168) -/

/-- One row of the per-district gap table of lines 165-166. -/
structure GapRow where
  district : String
  enrol_child : Nat
  bio_child : Nat
  gap : ℤ
deriving DecidableEq

/-- Descending comparison on the signed gap, the sort key of line 168
(`sort_values('gap', ascending=False)`). -/
def gapGE (a b : GapRow) : Bool := decide (b.gap ≤ a.gap)

/-- Lines 165-166: group the master rows by `district` alone, sum the
two counters and derive the signed gap. -/
def gap_table (t : MasterTable) : List GapRow :=
  ((t.rows.map fun r => r.key.2.1).dedup).map fun dname =>
    let g := t.rows.filter fun r => r.key.2.1 == dname
    let e := (g.map MasterRow.enrol_child).sum
    let b := (g.map MasterRow.bio_child).sum
    GapRow.mk dname e b ((e : ℤ) - (b : ℤ))

/-- `analyze_mbu_gap` (lines 158-168).  When either the `enrol_child`
or the `bio_child` column is missing from the master frame the function
takes the early `return` of line 163 — modelled as `none`, the explicit
"unavailable" result.  Otherwise it groups by `district` alone (line
165; `state` is not part of the key), sums the two counters, derives
the signed gap `enrol_child - bio_child` (line 166) and sorts
descending by gap (line 168).  The sorted table is the computed
artifact handed to the (out-of-scope) rendering sink; `head(10)` of it
is what line 168 plots. -/
def analyze_mbu_gap (t : MasterTable) : Option (List GapRow) :=
  if !(t.hasEnrol && t.hasBio) then none
  else some (sortBy gapGE (gap_table t))

/-- The `head(10)` taken at line 168 for the plot. -/
def top_risk (t : MasterTable) : Option (List GapRow) :=
  (analyze_mbu_gap t).map fun tbl => tbl.take 10

/-! ## Health scorer: generate_health_index (lines 109-155) -/

/-- One input row of `generate_health_index`: a master-table row carrying
the derived `total_activity` and `mbu_compliance` columns (the only
columns the scorer reads besides the group keys). -/
structure ActivityRow where
  state : String
  district : String
  total_activity : ℚ
  mbu_compliance : ℚ
deriving DecidableEq

/-- One row of `stats` after the aggregation and column flattening of
lines 114-120.  `daily_std` is the sample standard deviation of pandas
(`ddof = 1`): `none` (NaN) when the group has a single observation. -/
structure StatsRow where
  state : String
  district : String
  total_vol : ℚ
  daily_avg : ℚ
  daily_std : Option ℚ
  avg_mbu_compliance : ℚ
deriving DecidableEq

/-- Lines 114-120: group by (state, district); `total_vol` is the group
sum of `total_activity`, `daily_avg` its mean, `daily_std` its sample
standard deviation (NaN for a single observation), and
`avg_mbu_compliance` the group mean of `mbu_compliance`.  `sqrt` is the
floating square root used by the library's `std`. -/
def statsOf (sqrt : ℚ → ℚ) (df : List ActivityRow) (k : String × String) :
    StatsRow :=
  let g := df.filter fun r => (r.state, r.district) == k
  let n : ℚ := g.length
  let tot := (g.map ActivityRow.total_activity).sum
  let avg := tot / n
  let sd : Option ℚ :=
    if g.length < 2 then none
    else some (sqrt (((g.map fun r => (r.total_activity - avg) ^ 2).sum) / (n - 1)))
  let mbu := (g.map ActivityRow.mbu_compliance).sum / n
  ⟨k.1, k.2, tot, avg, sd, mbu⟩

def district_stats (sqrt : ℚ → ℚ) (df : List ActivityRow) : List StatsRow :=
  ((df.map fun r => (r.state, r.district)).dedup).map (statsOf sqrt df)

/-- Line 123: `volatility_cv = daily_std / (daily_avg + 1)`; NaN
propagates. -/
def volatility_cv (s : StatsRow) : Option ℚ :=
  s.daily_std.map fun sd => sd / (s.daily_avg + 1)

/-- Line 124: `stability_score = 1 / (volatility_cv + 0.1)`; NaN
propagates. -/
def stability_score (s : StatsRow) : Option ℚ :=
  (volatility_cv s).map fun cv => 1 / (cv + 1 / 10)

/-- Line 127: one row of the feature matrix
`stats[['total_vol','stability_score','avg_mbu_compliance']].fillna(0)`
fed (after scaling) to the clusterer.  Only `stability_score` can be
NaN; `fillna(0)` replaces it by 0 here — and only here. -/
def feature_row (s : StatsRow) : ℚ × ℚ × ℚ :=
  (s.total_vol, (stability_score s).getD 0, s.avg_mbu_compliance)

/-- Minimum of a column (0 by convention on an empty table, which never
arises below). -/
def colMin : List ℚ → ℚ
  | [] => 0
  | x :: xs => xs.foldl min x

def colMax : List ℚ → ℚ
  | [] => 0
  | x :: xs => xs.foldl max x

/-- One column of `MinMaxScaler().fit_transform`: `(x - min) / (max - min)`,
with sklearn's zero-range handling (a column of equal values is scaled
by 1, mapping everything to 0). -/
def minmaxScale (xs : List ℚ) (x : ℚ) : ℚ :=
  let range := colMax xs - colMin xs
  (x - colMin xs) / (if range = 0 then 1 else range)

/-- Mean of `total_vol` over the rows of a stats/cluster pairing that
carry cluster id `c` — `stats.groupby('cluster')['total_vol'].mean()`
at id `c` (line 135). -/
def clusterMeanVol (sc : List (StatsRow × ℕ)) (c : ℕ) : ℚ :=
  let g := sc.filter fun p => p.2 == c
  (g.map fun p => p.1.total_vol).sum / g.length

/-- Line 135: the cluster ids that occur, ordered by ascending mean
`total_vol` (`sort_values().index`). -/
def cluster_rank (sc : List (StatsRow × ℕ)) : List ℕ :=
  sortBy (fun a b => decide (clusterMeanVol sc a ≤ clusterMeanVol sc b))
    ((sc.map Prod.snd).dedup)

/-- Line 140: the fixed grade-to-label table; `Series.map` yields NaN
(`none`) outside its domain. -/
def label_map : ℕ → Option String
  | 0 => some "Critical Risk (High Gap)"
  | 1 => some "Moderate Risk"
  | 2 => some "Healthy Ecosystem"
  | _ => none

/-- An output row of `generate_health_index` (the columns of `stats`
after lines 132-145). -/
structure ScoredRow where
  state : String
  district : String
  total_vol : ℚ
  daily_avg : ℚ
  daily_std : Option ℚ
  avg_mbu_compliance : ℚ
  cluster : ℕ
  health_grade : ℕ
  risk_category : Option String
  health_index : Option ℚ
deriving DecidableEq

/-- Lines 131-145 applied to the aggregated `stats` table: pair each
stats row with its k-means cluster id (`fit_predict`, the opaque
`clusters` list), remap ids to volume-ranked grades via `rank_map`
(i.e. the position in `cluster_rank`), attach labels, and compute
`health_index = (0.4 * norm_vol + 0.4 * stability_score
+ 0.2 * avg_mbu_compliance) * 100`, where `norm_vol` re-min-max-scales
`total_vol` (line 144) but `stability_score` is used raw. -/
def scoreRow (rank : List ℕ) (vols : List ℚ) (p : StatsRow × ℕ) : ScoredRow :=
  let grade := rank.indexOf p.2
  { state := p.1.state
    district := p.1.district
    total_vol := p.1.total_vol
    daily_avg := p.1.daily_avg
    daily_std := p.1.daily_std
    avg_mbu_compliance := p.1.avg_mbu_compliance
    cluster := p.2
    health_grade := grade
    risk_category := label_map grade
    health_index := (stability_score p.1).map fun st =>
      (4 / 10 * minmaxScale vols p.1.total_vol + 4 / 10 * st +
          2 / 10 * p.1.avg_mbu_compliance) * 100 }

def score_stats (clusters : List ℕ) (stats : List StatsRow) : List ScoredRow :=
  let sc := stats.zip clusters
  sc.map (scoreRow (cluster_rank sc) (stats.map StatsRow.total_vol))

/-- Ascending comparison on `health_index`, the sort key of line 155;
pandas `sort_values` places NaN last. -/
def healthLE (a b : ScoredRow) : Bool :=
  match a.health_index, b.health_index with
  | some x, some y => decide (x ≤ y)
  | some _, none => true
  | none, none => true
  | none, some _ => false

/-- `generate_health_index` (lines 109-155): aggregate, score and
return the table sorted ascending by `health_index` (line 155). -/
def generate_health_index (sqrt : ℚ → ℚ) (clusters : List ℕ)
    (df : List ActivityRow) : List ScoredRow :=
  sortBy healthLE (score_stats clusters (district_stats sqrt df))

/-- Mean `total_vol` over the output rows holding health grade `g`. -/
def grade_mean_total_vol (out : List ScoredRow) (g : ℕ) : ℚ :=
  let rows := out.filter fun r => r.health_grade == g
  (rows.map ScoredRow.total_vol).sum / rows.length

/-- A master table exhibiting a health index above 100: three districts
with two equal-activity month rows each, so every standard deviation is
the square root of zero and every `stability_score` is 10. -/
def highStabilityDf : List ActivityRow :=
  [⟨"S", "A", 10, 0⟩, ⟨"S", "A", 10, 0⟩, ⟨"S", "B", 0, 0⟩, ⟨"S", "B", 0, 0⟩,
    ⟨"S", "C", 5, 0⟩, ⟨"S", "C", 5, 0⟩]

/-! ## Helper lemmas -/

attribute [local semireducible] Rat.mul Rat.inv Rat.sub Rat.add

theorem insertSorted_perm {α : Type} (le : α → α → Bool) (x : α)
    (l : List α) : (insertSorted le x l).Perm (x :: l) := by
  induction l with
  | nil => exact List.Perm.refl _
  | cons y ys ih =>
    rw [insertSorted]
    by_cases h : le x y = true
    · rw [if_pos h]
    · rw [if_neg h]
      exact (ih.cons y).trans (List.Perm.swap x y ys)

theorem sortBy_perm {α : Type} (le : α → α → Bool) (l : List α) :
    (sortBy le l).Perm l := by
  induction l with
  | nil => exact List.Perm.refl _
  | cons x xs ih => exact (insertSorted_perm le x (sortBy le xs)).trans (ih.cons x)

theorem pairwise_insertSorted {α : Type} {le : α → α → Bool}
    (htrans : ∀ a b c, le a b = true → le b c = true → le a c = true)
    (htotal : ∀ a b, (le a b || le b a) = true)
    (x : α) (l : List α)
    (hl : List.Pairwise (fun a b => le a b = true) l) :
    List.Pairwise (fun a b => le a b = true) (insertSorted le x l) := by
  induction l with
  | nil => simp [insertSorted]
  | cons y ys ih =>
    rw [insertSorted]
    rcases List.pairwise_cons.mp hl with ⟨hy, hys⟩
    by_cases h : le x y = true
    · rw [if_pos h]
      refine List.pairwise_cons.mpr ⟨?_, hl⟩
      intro z hz
      rcases List.mem_cons.mp hz with rfl | hz'
      · exact h
      · exact htrans x y z h (hy z hz')
    · rw [if_neg h]
      have hyx : le y x = true := by
        rcases Bool.or_eq_true_iff.mp (htotal x y) with h1 | h1
        · exact absurd h1 h
        · exact h1
      refine List.pairwise_cons.mpr ⟨?_, ih hys⟩
      intro z hz
      have hz2 : z = x ∨ z ∈ ys := by
        have := (insertSorted_perm le x ys).mem_iff.mp hz
        simpa using this
      rcases hz2 with rfl | hz'
      · exact hyx
      · exact hy z hz'

theorem sortBy_sorted {α : Type} {le : α → α → Bool}
    (htrans : ∀ a b c, le a b = true → le b c = true → le a c = true)
    (htotal : ∀ a b, (le a b || le b a) = true) (l : List α) :
    List.Pairwise (fun a b => le a b = true) (sortBy le l) := by
  induction l with
  | nil => exact List.Pairwise.nil
  | cons x xs ih => exact pairwise_insertSorted htrans htotal x (sortBy le xs) ih

theorem lcc_eq_flatten {α : Type} (files : List (Option (List α))) :
    load_and_combine_chunks files = (files.filterMap id).flatten := by
  unfold load_and_combine_chunks
  by_cases h : (files.filterMap id).isEmpty
  · rw [if_pos h, List.isEmpty_iff.mp h]; rfl
  · rw [if_neg h]

/-! ## C8: the loader skips failing files and never errors -/

/-- C8: `load_and_combine_chunks` silently skips any file whose parse
fails (dropping a failing file from the file list leaves the result
unchanged, and the result is exactly the concatenation of the
successfully parsed tables), and when zero files parse successfully it
returns the explicitly empty table rather than raising. -/
theorem C8_loader_skips_failures {α : Type}
    (files files1 files2 : List (Option (List α))) :
    load_and_combine_chunks (files1 ++ none :: files2) =
      load_and_combine_chunks (files1 ++ files2) ∧
    load_and_combine_chunks files = (files.filterMap id).flatten ∧
    ((∀ f ∈ files, f = none) → load_and_combine_chunks files = []) := by
  refine ⟨?_, lcc_eq_flatten files, fun h => ?_⟩
  · rw [lcc_eq_flatten, lcc_eq_flatten, List.filterMap_append,
      List.filterMap_append]
    rfl
  · have h0 : files.filterMap id = [] :=
      List.filterMap_eq_nil_iff.mpr fun a ha => h a ha
    rw [lcc_eq_flatten, h0]
    rfl

/-- C8 witness: with two files that both fail to parse the loader
returns the empty table, and a failing file between two good ones is
skipped. -/
theorem C8_loader_skips_failures_witness :
    load_and_combine_chunks ([none, none] : List (Option (List ℕ))) = [] ∧
    load_and_combine_chunks [some [1, 2], none, some [3]] =
      load_and_combine_chunks ([some [1, 2]] ++ [some [3]]) := by
  exact ⟨(C8_loader_skips_failures [none, none] [] []).2.2 (by decide),
    (C8_loader_skips_failures [] [some [1, 2]] [some [3]]).1⟩

/-! ## C2: mbu_compliance definition and absence of division by zero -/

/-- C2: when both the `bio_child` and the `enrol_child` column are
present in the merged master table (both cleaned domain tables were
non-empty), every row gets
`mbu_compliance = bio_child / (enrol_child + 1)` and the denominator is
never zero; when either column is absent, `mbu_compliance` is the
constant 0 on every row. -/
theorem C2_mbu_compliance (e : List EnrolRow) (b : List BioRow)
    (d : List DemoRow) :
    (e ≠ [] → b ≠ [] →
      ∀ r ∈ (merge_master e b d).rows,
        mbu_compliance (merge_master e b d) r =
          (r.bio_child : ℚ) / ((r.enrol_child : ℚ) + 1) ∧
        ((r.enrol_child : ℚ) + 1) ≠ 0) ∧
    ((e = [] ∨ b = []) →
      ∀ r ∈ (merge_master e b d).rows, mbu_compliance (merge_master e b d) r = 0) := by
  constructor
  · intro he hb r _
    have he' : e.isEmpty = false := by
      cases e with
      | nil => exact absurd rfl he
      | cons x xs => rfl
    have hb' : b.isEmpty = false := by
      cases b with
      | nil => exact absurd rfl hb
      | cons x xs => rfl
    constructor
    · simp [mbu_compliance, merge_master, he', hb']
    · have : (0 : ℚ) < (r.enrol_child : ℚ) + 1 := by positivity
      exact ne_of_gt this
  · intro h r _
    rcases h with h | h
    · simp [mbu_compliance, merge_master, h]
    · simp [mbu_compliance, merge_master, h]

/-- C2 witness: a concrete merged table with both columns present,
where the single row gets compliance 4 / (10 + 1). -/
theorem C2_mbu_compliance_witness :
    mbu_compliance
        (merge_master [⟨("S", "D", 2025, 3), 1, 10, 5⟩] [⟨("S", "D", 2025, 3), 4, 2⟩] [])
        ⟨("S", "D", 2025, 3), 1, 10, 5, 4, 2, 0, 0⟩ =
      ((4 : ℚ)) / (((10 : ℚ)) + 1) ∧
    (((10 : ℚ)) + 1) ≠ 0 := by
  exact (C2_mbu_compliance [⟨("S", "D", 2025, 3), 1, 10, 5⟩]
      [⟨("S", "D", 2025, 3), 4, 2⟩] []).1 (by decide) (by decide)
    ⟨("S", "D", 2025, 3), 1, 10, 5, 4, 2, 0, 0⟩ (by decide)

/-! ## C4: alias canonicalization -/

theorem mem_remap_of {α : Type} (df : List (RawRow α)) (r : RawRow α)
    (hr : r ∈ df) (h : containsDigit (titleStrip r.state) = false) :
    ({ r with state := state_map (titleStrip r.state) } : RawRow α) ∈
      remapStates (garbageFilter (fixStates df)) := by
  have h1 : fixStateRow r ∈ fixStates df := List.mem_map_of_mem fixStateRow hr
  have h2 : fixStateRow r ∈ garbageFilter (fixStates df) := by
    rw [garbageFilter, List.mem_filter]
    exact ⟨h1, by simp [fixStateRow, h]⟩
  exact List.mem_map_of_mem (fun x => { x with state := state_map x.state }) h2

/-- C4: a raw row whose region string title-cases and trims to any of
the four aliases "Westbengal", "Orissa", "Uttaranchal", "Delhi" (every
casing/whitespace variant of an alias does) survives the garbage filter
and comes out of the remap step of `clean_domain_df` with the
corresponding canonical region name "West Bengal", "Odisha",
"Uttarakhand", "NCT Of Delhi". -/
theorem C4_alias_canonicalization {α : Type} (df : List (RawRow α))
    (r : RawRow α) (hr : r ∈ df) :
    (titleStrip r.state = "Westbengal" →
      ({ r with state := "West Bengal" } : RawRow α) ∈
        remapStates (garbageFilter (fixStates df))) ∧
    (titleStrip r.state = "Orissa" →
      ({ r with state := "Odisha" } : RawRow α) ∈
        remapStates (garbageFilter (fixStates df))) ∧
    (titleStrip r.state = "Uttaranchal" →
      ({ r with state := "Uttarakhand" } : RawRow α) ∈
        remapStates (garbageFilter (fixStates df))) ∧
    (titleStrip r.state = "Delhi" →
      ({ r with state := "NCT Of Delhi" } : RawRow α) ∈
        remapStates (garbageFilter (fixStates df))) := by
  refine ⟨fun h => ?_, fun h => ?_, fun h => ?_, fun h => ?_⟩ <;>
    simpa [h, state_map] using mem_remap_of df r hr (by rw [h]; decide)

/-- C4 witness: concrete casing/whitespace variants of all four aliases
canonicalize as stated. -/
theorem C4_alias_canonicalization_witness :
    ({ state := "West Bengal", district := "D", date := "01-03-2025",
       pincode := 700001, counters := (5 : ℕ) } : RawRow ℕ) ∈
      remapStates (garbageFilter (fixStates
        [⟨" wESTbengal ", "D", "01-03-2025", 700001, 5⟩])) ∧
    ({ state := "Odisha", district := "D", date := "x", pincode := 0,
       counters := (0 : ℕ) } : RawRow ℕ) ∈
      remapStates (garbageFilter (fixStates
        [⟨"ORISSA", "D", "x", 0, 0⟩])) ∧
    ({ state := "Uttarakhand", district := "D", date := "x", pincode := 0,
       counters := (0 : ℕ) } : RawRow ℕ) ∈
      remapStates (garbageFilter (fixStates
        [⟨"  uttaranchal", "D", "x", 0, 0⟩])) ∧
    ({ state := "NCT Of Delhi", district := "D", date := "x", pincode := 0,
       counters := (0 : ℕ) } : RawRow ℕ) ∈
      remapStates (garbageFilter (fixStates
        [⟨"dELHI", "D", "x", 0, 0⟩])) := by
  refine ⟨?_, ?_, ?_, ?_⟩
  · exact (C4_alias_canonicalization
      [⟨" wESTbengal ", "D", "01-03-2025", 700001, 5⟩]
      ⟨" wESTbengal ", "D", "01-03-2025", 700001, 5⟩ (by decide)).1 (by decide)
  · exact (C4_alias_canonicalization [⟨"ORISSA", "D", "x", 0, 0⟩]
      ⟨"ORISSA", "D", "x", 0, 0⟩ (by decide)).2.1 (by decide)
  · exact (C4_alias_canonicalization [⟨"  uttaranchal", "D", "x", 0, 0⟩]
      ⟨"  uttaranchal", "D", "x", 0, 0⟩ (by decide)).2.2.1 (by decide)
  · exact (C4_alias_canonicalization [⟨"dELHI", "D", "x", 0, 0⟩]
      ⟨"dELHI", "D", "x", 0, 0⟩ (by decide)).2.2.2 (by decide)

/-! ## C3: the garbage filter is exactly the digit test, pre-remap -/

/-- C3: inside `clean_domain_df`, a row is dropped by the garbage
filter exactly when its title-cased, trimmed region string contains a
digit: every table row surviving the filter is digit-free, a digit-free
row always survives to the aggregation step, a digit-bearing row never
does, and the filter runs on the title-cased, trimmed state before the
historical-name remap, whose output feeds the aggregation. -/
theorem C3_garbage_filter {α : Type} [AddCommMonoid α] [DecidableEq α]
    (df : List (RawRow α)) (r : RawRow α) :
    (∀ x ∈ garbageFilter (fixStates df), containsDigit x.state = false) ∧
    (r ∈ df → containsDigit (titleStrip r.state) = false →
      fixStateRow r ∈ garbageFilter (fixStates df)) ∧
    (r ∈ df → containsDigit (titleStrip r.state) = true →
      fixStateRow r ∉ garbageFilter (fixStates df)) ∧
    (df ≠ [] →
      clean_domain_df df =
        aggregate (addMonth (remapStates (garbageFilter (fixStates df))))) := by
  refine ⟨fun x hx => ?_, fun hr h => ?_, fun hr h hmem => ?_, fun hne => ?_⟩
  · have := (List.mem_filter.mp hx).2
    simpa using this
  · rw [garbageFilter, List.mem_filter]
    exact ⟨List.mem_map_of_mem fixStateRow hr, by simp [fixStateRow, h]⟩
  · have := (List.mem_filter.mp hmem).2
    simp [fixStateRow, h] at this
  · rw [clean_domain_df, if_neg]
    simpa [List.isEmpty_iff] using hne

/-- C3 witness: in a concrete two-row table the digit-free row survives
the filter and the digit-bearing row is dropped. -/
theorem C3_garbage_filter_witness :
    fixStateRow (⟨"keRala ", "D", "01-01-2025", 1, (2 : ℕ)⟩ : RawRow ℕ) ∈
      garbageFilter (fixStates
        [⟨"keRala ", "D", "01-01-2025", 1, (2 : ℕ)⟩, ⟨"100000", "D", "x", 1, 3⟩]) ∧
    fixStateRow (⟨"100000", "D", "x", 1, (3 : ℕ)⟩ : RawRow ℕ) ∉
      garbageFilter (fixStates
        [⟨"keRala ", "D", "01-01-2025", 1, (2 : ℕ)⟩, ⟨"100000", "D", "x", 1, 3⟩]) ∧
    clean_domain_df
        [(⟨"keRala ", "D", "01-01-2025", 1, (2 : ℕ)⟩ : RawRow ℕ), ⟨"100000", "D", "x", 1, 3⟩] =
      aggregate (addMonth (remapStates (garbageFilter (fixStates
        [⟨"keRala ", "D", "01-01-2025", 1, (2 : ℕ)⟩, ⟨"100000", "D", "x", 1, 3⟩])))) := by
  refine ⟨?_, ?_, ?_⟩
  · exact (C3_garbage_filter
      [⟨"keRala ", "D", "01-01-2025", 1, 2⟩, ⟨"100000", "D", "x", 1, 3⟩]
      ⟨"keRala ", "D", "01-01-2025", 1, 2⟩).2.1 (by decide) (by decide)
  · exact (C3_garbage_filter
      [⟨"keRala ", "D", "01-01-2025", 1, 2⟩, ⟨"100000", "D", "x", 1, 3⟩]
      ⟨"100000", "D", "x", 1, 3⟩).2.2.1 (by decide) (by decide)
  · exact (C3_garbage_filter
      [⟨"keRala ", "D", "01-01-2025", 1, 2⟩, ⟨"100000", "D", "x", 1, 3⟩]
      ⟨"100000", "D", "x", 1, 3⟩).2.2.2 (by decide)

/-! ## C9: empty short-circuit and per-row (never whole-table) failure -/

theorem pipeline_eq_filterMap {α : Type} (df : List (RawRow α)) :
    addMonth (remapStates (garbageFilter (fixStates df))) = df.filterMap prepRow := by
  induction df with
  | nil => rfl
  | cons r t ih =>
    by_cases h : containsDigit (titleStrip r.state)
    · have hgf : garbageFilter (fixStates (r :: t)) = garbageFilter (fixStates t) := by
        show List.filter _ (fixStateRow r :: fixStates t) = _
        rw [List.filter_cons, if_neg (by simp [fixStateRow, h])]
        rfl
      have hp : prepRow r = none := by simp [prepRow, h]
      rw [hgf, ih, List.filterMap_cons, hp]
    · have hgf : garbageFilter (fixStates (r :: t)) =
          fixStateRow r :: garbageFilter (fixStates t) := by
        show List.filter _ (fixStateRow r :: fixStates t) = _
        rw [List.filter_cons, if_pos (by simp [fixStateRow, h])]
        rfl
      have hp : prepRow r =
          some ⟨state_map (titleStrip r.state), r.district, parseMonth r.date,
            r.counters⟩ := by
        simp [prepRow, h]
      rw [hgf, List.filterMap_cons, hp]
      show (⟨state_map (titleStrip r.state), r.district, parseMonth r.date,
          r.counters⟩ : PrepRow α) ::
          addMonth (remapStates (garbageFilter (fixStates t))) = _
      rw [ih]

/-- C9: `clean_domain_df` short-circuits an empty input table to an
empty output without running any normalization stage, and on any
non-empty input it is a total function whose stages act row by row:
the staged pipeline equals a per-row `filterMap` in which each
malformed row (digit-bearing region, or a date that fails to parse and
is `none`-bucketed) is filtered or degraded individually, never
failing the whole table. -/
theorem C9_clean_empty_and_rowwise {α : Type} [AddCommMonoid α] [DecidableEq α]
    (df : List (RawRow α)) :
    clean_domain_df ([] : List (RawRow α)) = [] ∧
    (df ≠ [] → clean_domain_df df = aggregate (df.filterMap prepRow)) := by
  refine ⟨rfl, fun hne => ?_⟩
  rw [clean_domain_df, if_neg (by simpa [List.isEmpty_iff] using hne),
    pipeline_eq_filterMap]

/-- C9 witness: a concrete non-empty malformed table (a digit-bearing
state and an unparseable date) is processed row by row. -/
theorem C9_clean_empty_and_rowwise_witness :
    clean_domain_df
        [(⟨"A1", "D", "01-01-2025", 1, (2 : ℕ)⟩ : RawRow ℕ),
          ⟨"Kerala", "D", "31-02-2025", 1, 3⟩,
          ⟨"Kerala", "D", "01-02-2025", 1, 4⟩] =
      aggregate (List.filterMap prepRow
        [(⟨"A1", "D", "01-01-2025", 1, (2 : ℕ)⟩ : RawRow ℕ),
          ⟨"Kerala", "D", "31-02-2025", 1, 3⟩,
          ⟨"Kerala", "D", "01-02-2025", 1, 4⟩]) := by
  exact (C9_clean_empty_and_rowwise
    [⟨"A1", "D", "01-01-2025", 1, 2⟩, ⟨"Kerala", "D", "31-02-2025", 1, 3⟩,
      ⟨"Kerala", "D", "01-02-2025", 1, 4⟩]).2 (by decide)

/-! ## C7: the gap analyzer -/

theorem gapGE_trans (a b c : GapRow) :
    gapGE a b = true → gapGE b c = true → gapGE a c = true := by
  simp only [gapGE, decide_eq_true_eq]
  exact fun h1 h2 => le_trans h2 h1

theorem gapGE_total (a b : GapRow) : (gapGE a b || gapGE b a) = true := by
  simp only [gapGE, Bool.or_eq_true, decide_eq_true_eq]
  exact le_total b.gap a.gap

/-- C7: when either the child-enrolment or the child-bio-update column
is missing from the master table, `analyze_mbu_gap` returns the
explicit unavailable result `none` instead of raising; when both are
present it returns a table keyed by sub-region only (`district`, the
region is not part of the key), in which each row carries the two
counters summed over every master row of that sub-region and the
signed gap `enrol_child - bio_child`, sorted descending by gap. -/
theorem C7_analyze_mbu_gap (t : MasterTable) :
    ((t.hasEnrol && t.hasBio) = false → analyze_mbu_gap t = none) ∧
    ((t.hasEnrol && t.hasBio) = true →
      ∃ tbl, analyze_mbu_gap t = some tbl ∧
        List.Pairwise (fun a b => b.gap ≤ a.gap) tbl ∧
        ∀ gr ∈ tbl,
          gr.enrol_child =
            ((t.rows.filter fun r => r.key.2.1 == gr.district).map
              MasterRow.enrol_child).sum ∧
          gr.bio_child =
            ((t.rows.filter fun r => r.key.2.1 == gr.district).map
              MasterRow.bio_child).sum ∧
          gr.gap = (gr.enrol_child : ℤ) - (gr.bio_child : ℤ)) := by
  constructor
  · intro h
    rw [analyze_mbu_gap, if_pos (by rw [h]; rfl)]
  · intro h
    rw [analyze_mbu_gap, if_neg (by rw [h]; exact Bool.false_ne_true)]
    refine ⟨_, rfl, ?_, ?_⟩
    · have hs := sortBy_sorted gapGE_trans gapGE_total (gap_table t)
      exact hs.imp fun hab => by simpa [gapGE] using hab
    · intro gr hgr
      have hmem : gr ∈ gap_table t :=
        (sortBy_perm gapGE (gap_table t)).mem_iff.mp hgr
      rcases List.mem_map.mp hmem with ⟨dname, _, hbuild⟩
      subst hbuild
      exact ⟨rfl, rfl, rfl⟩

/-- C7 witness: a two-district master table where the sub-region with
enrolment 100 and bio-update 60 has gap +40, the one with enrolment 60
and bio-update 100 has gap -40, and the former is ranked first. -/
theorem C7_analyze_mbu_gap_witness :
    analyze_mbu_gap
        ⟨true, true, false,
          [⟨("S1", "A", 2025, 1), 0, 100, 0, 60, 0, 0, 0⟩,
            ⟨("S2", "B", 2025, 1), 0, 60, 0, 100, 0, 0, 0⟩]⟩ =
      some [⟨"A", 100, 60, 40⟩, ⟨"B", 60, 100, -40⟩] ∧
    (∃ tbl, analyze_mbu_gap
        ⟨true, true, false,
          [⟨("S1", "A", 2025, 1), 0, 100, 0, 60, 0, 0, 0⟩,
            ⟨("S2", "B", 2025, 1), 0, 60, 0, 100, 0, 0, 0⟩]⟩ = some tbl ∧
      List.Pairwise (fun a b => b.gap ≤ a.gap) tbl ∧
      ∀ gr ∈ tbl,
        gr.enrol_child =
          ((List.filter (fun r => r.key.2.1 == gr.district)
            [(⟨("S1", "A", 2025, 1), 0, 100, 0, 60, 0, 0, 0⟩ : MasterRow),
              ⟨("S2", "B", 2025, 1), 0, 60, 0, 100, 0, 0, 0⟩]).map
            MasterRow.enrol_child).sum ∧
        gr.bio_child =
          ((List.filter (fun r => r.key.2.1 == gr.district)
            [(⟨("S1", "A", 2025, 1), 0, 100, 0, 60, 0, 0, 0⟩ : MasterRow),
              ⟨("S2", "B", 2025, 1), 0, 60, 0, 100, 0, 0, 0⟩]).map
            MasterRow.bio_child).sum ∧
        gr.gap = (gr.enrol_child : ℤ) - (gr.bio_child : ℤ)) := by
  constructor
  · decide
  · exact (C7_analyze_mbu_gap
      ⟨true, true, false,
        [⟨("S1", "A", 2025, 1), 0, 100, 0, 60, 0, 0, 0⟩,
          ⟨("S2", "B", 2025, 1), 0, 60, 0, 100, 0, 0, 0⟩]⟩).2 rfl

/-! ## C5: zero-fill and conservation under the outer merge -/

theorem mem_keysUnion {k : MKey} {ks1 ks2 : List MKey} :
    k ∈ keysUnion ks1 ks2 ↔ k ∈ ks1 ∨ k ∈ ks2 := by
  rw [keysUnion, List.mem_append]
  constructor
  · rintro (h | h)
    · exact Or.inl h
    · exact Or.inr (List.mem_filter.mp h).1
  · rintro (h | h)
    · exact Or.inl h
    · by_cases h1 : k ∈ ks1
      · exact Or.inl h1
      · refine Or.inr (List.mem_filter.mpr ⟨h, ?_⟩)
        simp only [Bool.not_eq_true']
        exact (Bool.not_eq_true _).mp fun hc => h1 (List.elem_iff.mp hc)

theorem mem_masterKeys {e : List EnrolRow} {b : List BioRow} {d : List DemoRow}
    {k : MKey} :
    k ∈ masterKeys e b d ↔
      k ∈ e.map EnrolRow.key ∨ k ∈ b.map BioRow.key ∨ k ∈ d.map DemoRow.key := by
  rw [masterKeys]
  cases e with
  | nil =>
    cases b with
    | nil =>
      cases d with
      | nil => simp
      | cons d0 ds => simp
    | cons b0 bs =>
      cases d with
      | nil => simp
      | cons d0 ds => simp [mem_keysUnion]
  | cons e0 es =>
    cases b with
    | nil =>
      cases d with
      | nil => simp
      | cons d0 ds => simp [mem_keysUnion]
    | cons b0 bs =>
      cases d with
      | nil => simp [mem_keysUnion]
      | cons d0 ds =>
        have hne : keysUnion (e0.key :: List.map EnrolRow.key es)
            (b0.key :: List.map BioRow.key bs) ≠ [] := by
          simp [keysUnion]
        simp [mem_keysUnion, or_assoc, hne]

/-- C5: after the outer joins and `fillna(0)`, a key present in exactly
one domain table produces a master row whose counters from the two
absent domains are all zero, and whose `total_activity` is the sum of
only that domain's counters among the six canonical child/adult
counters (`enrol_child + enrol_adult`, `bio_child + bio_adult`, or
`demo_child + demo_adult` respectively). -/
theorem C5_merge_conservation (e : List EnrolRow) (b : List BioRow)
    (d : List DemoRow) (k : MKey) :
    (k ∈ e.map EnrolRow.key → (∀ br ∈ b, br.key ≠ k) → (∀ dr ∈ d, dr.key ≠ k) →
      ∃ r ∈ (merge_master e b d).rows, ∃ er ∈ e, er.key = k ∧
        r = ⟨k, er.enrol_infant, er.enrol_child, er.enrol_adult, 0, 0, 0, 0⟩ ∧
        total_activity (merge_master e b d) r = er.enrol_child + er.enrol_adult) ∧
    (k ∈ b.map BioRow.key → (∀ er ∈ e, er.key ≠ k) → (∀ dr ∈ d, dr.key ≠ k) →
      ∃ r ∈ (merge_master e b d).rows, ∃ br ∈ b, br.key = k ∧
        r = ⟨k, 0, 0, 0, br.bio_child, br.bio_adult, 0, 0⟩ ∧
        total_activity (merge_master e b d) r = br.bio_child + br.bio_adult) ∧
    (k ∈ d.map DemoRow.key → (∀ er ∈ e, er.key ≠ k) → (∀ br ∈ b, br.key ≠ k) →
      ∃ r ∈ (merge_master e b d).rows, ∃ dr ∈ d, dr.key = k ∧
        r = ⟨k, 0, 0, 0, 0, 0, dr.demo_child, dr.demo_adult⟩ ∧
        total_activity (merge_master e b d) r = dr.demo_child + dr.demo_adult) := by
  refine ⟨fun hk hb hd => ?_, fun hk he hd => ?_, fun hk he hb => ?_⟩
  · have hkm : k ∈ masterKeys e b d := mem_masterKeys.mpr (Or.inl hk)
    have hbL : lookupBio b k = (0, 0) := by
      rw [lookupBio, List.find?_eq_none.mpr]
      intro br hbr
      simpa using hb br hbr
    have hdL : lookupDemo d k = (0, 0) := by
      rw [lookupDemo, List.find?_eq_none.mpr]
      intro dr hdr
      simpa using hd dr hdr
    obtain ⟨er, her⟩ : ∃ er, e.find? (fun r => r.key == k) = some er := by
      have : (e.find? fun r => r.key == k).isSome = true := by
        rw [List.find?_isSome]
        rcases List.mem_map.mp hk with ⟨er, hmem, hkey⟩
        exact ⟨er, hmem, by simp [hkey]⟩
      exact Option.isSome_iff_exists.mp this
    have herk : er.key = k := by simpa using List.find?_some her
    have heL : lookupEnrol e k = (er.enrol_infant, er.enrol_child, er.enrol_adult) := by
      rw [lookupEnrol, her]
    have hne : e ≠ [] := by
      rintro rfl
      simp at hk
    refine ⟨_, List.mem_map_of_mem _ hkm, er, List.mem_of_find?_eq_some her,
      herk, ?_, ?_⟩
    · simp only [heL, hbL, hdL]
    · have henrol : (merge_master e b d).hasEnrol = true := by
        rw [merge_master]
        cases e with
        | nil => exact absurd rfl hne
        | cons x xs => rfl
      simp only [heL, hbL, hdL, total_activity, henrol, if_true]
      cases hB : (merge_master e b d).hasBio <;>
        cases hD : (merge_master e b d).hasDemo <;> simp
  · have hkm : k ∈ masterKeys e b d := mem_masterKeys.mpr (Or.inr (Or.inl hk))
    have heL : lookupEnrol e k = (0, 0, 0) := by
      rw [lookupEnrol, List.find?_eq_none.mpr]
      intro er her
      simpa using he er her
    have hdL : lookupDemo d k = (0, 0) := by
      rw [lookupDemo, List.find?_eq_none.mpr]
      intro dr hdr
      simpa using hd dr hdr
    obtain ⟨br, hbr⟩ : ∃ br, b.find? (fun r => r.key == k) = some br := by
      have : (b.find? fun r => r.key == k).isSome = true := by
        rw [List.find?_isSome]
        rcases List.mem_map.mp hk with ⟨br, hmem, hkey⟩
        exact ⟨br, hmem, by simp [hkey]⟩
      exact Option.isSome_iff_exists.mp this
    have hbrk : br.key = k := by simpa using List.find?_some hbr
    have hbL : lookupBio b k = (br.bio_child, br.bio_adult) := by
      rw [lookupBio, hbr]
    have hne : b ≠ [] := by
      rintro rfl
      simp at hk
    refine ⟨_, List.mem_map_of_mem _ hkm, br, List.mem_of_find?_eq_some hbr,
      hbrk, ?_, ?_⟩
    · simp only [heL, hbL, hdL]
    · have hbio : (merge_master e b d).hasBio = true := by
        rw [merge_master]
        cases b with
        | nil => exact absurd rfl hne
        | cons x xs => rfl
      simp only [heL, hbL, hdL, total_activity, hbio, if_true]
      cases hE : (merge_master e b d).hasEnrol <;>
        cases hD : (merge_master e b d).hasDemo <;> simp
  · have hkm : k ∈ masterKeys e b d := mem_masterKeys.mpr (Or.inr (Or.inr hk))
    have heL : lookupEnrol e k = (0, 0, 0) := by
      rw [lookupEnrol, List.find?_eq_none.mpr]
      intro er her
      simpa using he er her
    have hbL : lookupBio b k = (0, 0) := by
      rw [lookupBio, List.find?_eq_none.mpr]
      intro br hbr
      simpa using hb br hbr
    obtain ⟨dr, hdr⟩ : ∃ dr, d.find? (fun r => r.key == k) = some dr := by
      have : (d.find? fun r => r.key == k).isSome = true := by
        rw [List.find?_isSome]
        rcases List.mem_map.mp hk with ⟨dr, hmem, hkey⟩
        exact ⟨dr, hmem, by simp [hkey]⟩
      exact Option.isSome_iff_exists.mp this
    have hdrk : dr.key = k := by simpa using List.find?_some hdr
    have hdL : lookupDemo d k = (dr.demo_child, dr.demo_adult) := by
      rw [lookupDemo, hdr]
    have hne : d ≠ [] := by
      rintro rfl
      simp at hk
    refine ⟨_, List.mem_map_of_mem _ hkm, dr, List.mem_of_find?_eq_some hdr,
      hdrk, ?_, ?_⟩
    · simp only [heL, hbL, hdL]
    · have hdemo : (merge_master e b d).hasDemo = true := by
        rw [merge_master]
        cases d with
        | nil => exact absurd rfl hne
        | cons x xs => rfl
      simp only [heL, hbL, hdL, total_activity, hdemo, if_true]
      cases hE : (merge_master e b d).hasEnrol <;>
        cases hB : (merge_master e b d).hasBio <;> simp

/-- C5 witness: a key present only in the biometric table yields a
master row with zeroed enrolment/demographic cells whose
`total_activity` is the biometric child/adult sum alone. -/
theorem C5_merge_conservation_witness :
    ∃ r ∈ (merge_master [⟨("S", "D", 2025, 1), 1, 2, 3⟩]
        [⟨("S", "E", 2025, 1), 7, 9⟩] []).rows,
      ∃ br ∈ [(⟨("S", "E", 2025, 1), 7, 9⟩ : BioRow)],
        br.key = ("S", "E", 2025, 1) ∧
        r = ⟨("S", "E", 2025, 1), 0, 0, 0, br.bio_child, br.bio_adult, 0, 0⟩ ∧
        total_activity (merge_master [⟨("S", "D", 2025, 1), 1, 2, 3⟩]
            [⟨("S", "E", 2025, 1), 7, 9⟩] []) r =
          br.bio_child + br.bio_adult := by
  exact (C5_merge_conservation [⟨("S", "D", 2025, 1), 1, 2, 3⟩]
    [⟨("S", "E", 2025, 1), 7, 9⟩] [] ("S", "E", 2025, 1)).2.1
    (by decide) (by decide) (by decide)

/-! ## C10: groups with a single month row -/

theorem statsOf_daily_std_none (sqrt : ℚ → ℚ) (df : List ActivityRow)
    (k : String × String)
    (h : (df.filter fun r => (r.state, r.district) == k).length < 2) :
    (statsOf sqrt df k).daily_std = none := by
  unfold statsOf
  simp only [h, if_true]

/-- C10: a (region, sub-region) group with exactly one month row gets an
undefined (NaN) sample standard deviation, hence NaN `volatility_cv`
and NaN `stability_score`; the NaN is replaced by 0 only in the feature
matrix handed to the clusterer (`fillna(0)` on the feature copy), while
the district's `health_index`, computed from the original NaN
`stability_score`, is itself NaN — not a number in [0, 100]. -/
theorem C10_single_month (sqrt : ℚ → ℚ) (df : List ActivityRow) (s : StatsRow)
    (hs : s ∈ district_stats sqrt df)
    (h1 : (df.filter fun r =>
      (r.state, r.district) == (s.state, s.district)).length = 1) :
    s.daily_std = none ∧ volatility_cv s = none ∧ stability_score s = none ∧
    feature_row s = (s.total_vol, 0, s.avg_mbu_compliance) ∧
    (∀ clusters : List ℕ, ∀ r ∈ generate_health_index sqrt clusters df,
      r.state = s.state → r.district = s.district → r.health_index = none) := by
  have hstd : s.daily_std = none := by
    rcases List.mem_map.mp hs with ⟨k, hk, hsk⟩
    rw [← hsk]
    refine statsOf_daily_std_none sqrt df k ?_
    have h1' : (df.filter fun r => (r.state, r.district) == k).length = 1 := by
      have : ((statsOf sqrt df k).state, (statsOf sqrt df k).district) = k := rfl
      rw [← hsk] at h1
      rw [this] at h1
      exact h1
    rw [h1']
    norm_num
  have hvol : volatility_cv s = none := by rw [volatility_cv, hstd]; rfl
  have hstab : stability_score s = none := by rw [stability_score, hvol]; rfl
  refine ⟨hstd, hvol, hstab, by rw [feature_row, hstab]; rfl, ?_⟩
  intro clusters r hr hstate hdistrict
  have hr' : r ∈ score_stats clusters (district_stats sqrt df) :=
    (sortBy_perm healthLE _).mem_iff.mp hr
  rcases List.mem_map.mp hr' with ⟨p, hp, hrp⟩
  have hp1 : p.1 ∈ district_stats sqrt df := (List.of_mem_zip hp).1
  rcases List.mem_map.mp hp1 with ⟨kp, hkp, hpk⟩
  rcases List.mem_map.mp hs with ⟨ks, hks, hsk⟩
  have hps : p.1 = s := by
    rw [← hpk, ← hsk]
    have es : kp.1 = ks.1 := by
      have h2 : p.1.state = s.state := by rw [← hrp] at hstate; exact hstate
      rw [← hpk, ← hsk] at h2
      exact h2
    have ed : kp.2 = ks.2 := by
      have h2 : p.1.district = s.district := by rw [← hrp] at hdistrict; exact hdistrict
      rw [← hpk, ← hsk] at h2
      exact h2
    rw [show kp = ks from Prod.ext es ed]
  rw [← hrp]
  show (stability_score p.1).map _ = none
  rw [hps, hstab]
  rfl

/-- C10 witness: in a table where district A has one month row and
district B has two, A's stats row has NaN deviation, volatility and
stability, while its clustering feature is zero-filled. -/
theorem C10_single_month_witness :
    (⟨"S", "A", 5, 5, none, 1⟩ : StatsRow).daily_std = none ∧
    volatility_cv ⟨"S", "A", 5, 5, none, 1⟩ = none ∧
    stability_score ⟨"S", "A", 5, 5, none, 1⟩ = none ∧
    feature_row (⟨"S", "A", 5, 5, none, 1⟩ : StatsRow) =
      ((⟨"S", "A", 5, 5, none, 1⟩ : StatsRow).total_vol, 0,
        (⟨"S", "A", 5, 5, none, 1⟩ : StatsRow).avg_mbu_compliance) := by
  have h := C10_single_month (fun q => q)
    [⟨"S", "A", 5, 1⟩, ⟨"S", "B", 3, 0⟩, ⟨"S", "B", 4, 0⟩]
    ⟨"S", "A", 5, 5, none, 1⟩ (by decide) (by decide)
  exact ⟨h.1, h.2.1, h.2.2.1, h.2.2.2.1⟩

/-! ## C6: the health-index formula, range looseness and output order -/

theorem healthLE_trans (a b c : ScoredRow) :
    healthLE a b = true → healthLE b c = true → healthLE a c = true := by
  unfold healthLE
  rcases a.health_index with _ | x <;> rcases b.health_index with _ | y <;>
    rcases c.health_index with _ | z <;> simp
  exact fun h1 h2 => le_trans h1 h2

theorem healthLE_total (a b : ScoredRow) :
    (healthLE a b || healthLE b a) = true := by
  unfold healthLE
  rcases a.health_index with _ | x <;> rcases b.health_index with _ | y <;> simp
  exact le_total x y

/-- C6: every output row of `generate_health_index` carries
`health_index = 100 * (0.4 * minmax-rescaled total_vol
+ 0.4 * stability_score + 0.2 * avg_mbu_compliance)`, in which
`stability_score` enters raw (not re-normalized to [0, 1], unlike
`total_vol`) — so the index is not confined to [0, 100]: on the
concrete input `highStabilityDf` some row exceeds 100.  The returned
table is the scored table sorted ascending by `health_index` (NaN
last). -/
theorem C6_health_index_formula (sqrt : ℚ → ℚ) (clusters : List ℕ)
    (df : List ActivityRow) :
    (∀ r ∈ generate_health_index sqrt clusters df,
      r.health_index =
        (stability_score ⟨r.state, r.district, r.total_vol, r.daily_avg,
          r.daily_std, r.avg_mbu_compliance⟩).map fun st =>
          (4 / 10 * minmaxScale ((district_stats sqrt df).map StatsRow.total_vol)
              r.total_vol + 4 / 10 * st + 2 / 10 * r.avg_mbu_compliance) * 100) ∧
    List.Pairwise (fun a b => healthLE a b = true)
      (generate_health_index sqrt clusters df) ∧
    (generate_health_index sqrt clusters df).Perm
      (score_stats clusters (district_stats sqrt df)) ∧
    (sqrt 0 = 0 →
      ∃ r ∈ generate_health_index sqrt [0, 1, 2] highStabilityDf,
        ∃ q, r.health_index = some q ∧ 100 < q) := by
  refine ⟨?_, sortBy_sorted healthLE_trans healthLE_total _, sortBy_perm _ _, ?_⟩
  · intro r hr
    have hr' : r ∈ score_stats clusters (district_stats sqrt df) :=
      (sortBy_perm healthLE _).mem_iff.mp hr
    rcases List.mem_map.mp hr' with ⟨p, hp, hrp⟩
    rw [← hrp]
    rfl
  · intro h
    have hst : district_stats sqrt highStabilityDf =
        [⟨"S", "A", 20, 10, some (sqrt 0), 0⟩, ⟨"S", "B", 0, 0, some (sqrt 0), 0⟩,
          ⟨"S", "C", 10, 5, some (sqrt 0), 0⟩] := by
      rfl
    rw [h] at hst
    refine ⟨⟨"S", "A", 20, 10, some 0, 0, 0, 2, some "Healthy Ecosystem", some 440⟩,
      ?_, 440, rfl, by norm_num⟩
    show _ ∈ sortBy healthLE (score_stats [0, 1, 2] (district_stats sqrt highStabilityDf))
    rw [hst]
    decide

/-- C6 witness: on `highStabilityDf` with the zero square root and
clusters `[0, 1, 2]`, the output is sorted ascending by health index
(400, 420, 440) and district A's index 440 exceeds 100. -/
theorem C6_health_index_formula_witness :
    generate_health_index (fun _ => 0) [0, 1, 2] highStabilityDf =
      [⟨"S", "B", 0, 0, some 0, 0, 1, 0, some "Critical Risk (High Gap)", some 400⟩,
        ⟨"S", "C", 10, 5, some 0, 0, 2, 1, some "Moderate Risk", some 420⟩,
        ⟨"S", "A", 20, 10, some 0, 0, 0, 2, some "Healthy Ecosystem", some 440⟩] ∧
    (∃ r ∈ generate_health_index (fun _ => 0) [0, 1, 2] highStabilityDf,
      ∃ q, r.health_index = some q ∧ 100 < q) := by
  exact ⟨by decide,
    (C6_health_index_formula (fun _ => 0) [0, 1, 2] highStabilityDf).2.2.2 rfl⟩

/-! ## C1: volume-ordered cluster grades and labels -/

theorem cmLE_trans (sc : List (StatsRow × ℕ)) (a b c : ℕ) :
    decide (clusterMeanVol sc a ≤ clusterMeanVol sc b) = true →
    decide (clusterMeanVol sc b ≤ clusterMeanVol sc c) = true →
    decide (clusterMeanVol sc a ≤ clusterMeanVol sc c) = true := fun h1 h2 =>
  decide_eq_true (le_trans (of_decide_eq_true h1) (of_decide_eq_true h2))

theorem cmLE_total (sc : List (StatsRow × ℕ)) (a b : ℕ) :
    (decide (clusterMeanVol sc a ≤ clusterMeanVol sc b) ||
      decide (clusterMeanVol sc b ≤ clusterMeanVol sc a)) = true := by
  rcases le_total (clusterMeanVol sc a) (clusterMeanVol sc b) with h | h
  · simp [h]
  · simp [h]

theorem cluster_rank_nodup (sc : List (StatsRow × ℕ)) : (cluster_rank sc).Nodup :=
  ((sortBy_perm _ _).nodup_iff).mpr (List.nodup_dedup _)

theorem cluster_rank_sorted (sc : List (StatsRow × ℕ)) :
    List.Pairwise
      (fun a b => decide (clusterMeanVol sc a ≤ clusterMeanVol sc b) = true)
      (cluster_rank sc) :=
  sortBy_sorted (cmLE_trans sc) (cmLE_total sc) _

theorem cluster_rank_mem (sc : List (StatsRow × ℕ)) (q : StatsRow × ℕ)
    (hq : q ∈ sc) : q.2 ∈ cluster_rank sc :=
  (sortBy_perm _ _).mem_iff.mpr
    (List.mem_dedup.mpr (List.mem_map_of_mem Prod.snd hq))

/-- The mean `total_vol` of the output rows holding grade `g` is the
mean `total_vol` of the cluster ranked `g`-th by ascending mean volume:
the `rank_map` indirection of lines 135-137 relabels but does not mix
clusters. -/
theorem grade_mean_eq_clusterMean (clusters : List ℕ) (stats : List StatsRow)
    (g : ℕ) (hg : g < (cluster_rank (stats.zip clusters)).length) :
    grade_mean_total_vol (sortBy healthLE (score_stats clusters stats)) g =
      clusterMeanVol (stats.zip clusters) ((cluster_rank (stats.zip clusters))[g]) := by
  have hperm : ((sortBy healthLE (score_stats clusters stats)).filter
      (fun r => r.health_grade == g)).Perm
      ((score_stats clusters stats).filter (fun r => r.health_grade == g)) :=
    (sortBy_perm healthLE _).filter _
  have hfm : (score_stats clusters stats).filter (fun r => r.health_grade == g) =
      ((stats.zip clusters).filter fun q =>
          (cluster_rank (stats.zip clusters)).indexOf q.2 == g).map
        (scoreRow (cluster_rank (stats.zip clusters))
          (stats.map StatsRow.total_vol)) := by
    show List.filter _ ((stats.zip clusters).map
      (scoreRow (cluster_rank (stats.zip clusters)) (stats.map StatsRow.total_vol))) = _
    rw [List.filter_map]
    rfl
  have hfilter2 : ((stats.zip clusters).filter fun q =>
        (cluster_rank (stats.zip clusters)).indexOf q.2 == g) =
      ((stats.zip clusters).filter fun q =>
        q.2 == (cluster_rank (stats.zip clusters))[g]) := by
    refine List.filter_congr ?_
    intro q hq
    have hq2 : q.2 ∈ cluster_rank (stats.zip clusters) :=
      cluster_rank_mem _ q hq
    rw [Bool.eq_iff_iff]
    simp only [beq_iff_eq]
    constructor
    · intro hidx
      subst hidx
      exact (List.getElem_indexOf (List.indexOf_lt_length.mpr hq2)).symm
    · intro hqe
      rw [hqe]
      exact List.indexOf_getElem (cluster_rank_nodup _) g hg
  have hsum : (((sortBy healthLE (score_stats clusters stats)).filter
      (fun r => r.health_grade == g)).map ScoredRow.total_vol).sum =
      (((stats.zip clusters).filter fun q =>
        q.2 == (cluster_rank (stats.zip clusters))[g]).map
          fun q => q.1.total_vol).sum := by
    rw [(hperm.map ScoredRow.total_vol).sum_eq, hfm, hfilter2, List.map_map]
    rfl
  have hlen2 : ((sortBy healthLE (score_stats clusters stats)).filter
      (fun r => r.health_grade == g)).length =
      ((stats.zip clusters).filter fun q =>
        q.2 == (cluster_rank (stats.zip clusters))[g]).length := by
    rw [hperm.length_eq, hfm, hfilter2, List.length_map]
  show (((sortBy healthLE (score_stats clusters stats)).filter
      (fun r => r.health_grade == g)).map ScoredRow.total_vol).sum /
      ((sortBy healthLE (score_stats clusters stats)).filter
        (fun r => r.health_grade == g)).length = _
  rw [hsum, hlen2]
  rfl

/-- C1: when the k-means assignment uses the three cluster ids 0, 1, 2
(sklearn guarantees non-empty clusters whenever there are at least 3
distinct (region, sub-region) groups), `generate_health_index` remaps
ids to ordinal grades by ascending mean `total_vol`, so the mean
`total_vol` of grade 0 is at most that of grade 1, which is at most
that of grade 2, and the labels are the fixed table grade 0 ↦
"Critical Risk (High Gap)", 1 ↦ "Moderate Risk", 2 ↦
"Healthy Ecosystem". -/
theorem C1_cluster_grade_monotone (sqrt : ℚ → ℚ) (clusters : List ℕ)
    (df : List ActivityRow)
    (hlen : clusters.length = (district_stats sqrt df).length)
    (hlt : ∀ c ∈ clusters, c < 3)
    (hsurj : ∀ c, c < 3 → c ∈ clusters) :
    grade_mean_total_vol (generate_health_index sqrt clusters df) 0 ≤
      grade_mean_total_vol (generate_health_index sqrt clusters df) 1 ∧
    grade_mean_total_vol (generate_health_index sqrt clusters df) 1 ≤
      grade_mean_total_vol (generate_health_index sqrt clusters df) 2 ∧
    ∀ r ∈ generate_health_index sqrt clusters df,
      (r.health_grade = 0 → r.risk_category = some "Critical Risk (High Gap)") ∧
      (r.health_grade = 1 → r.risk_category = some "Moderate Risk") ∧
      (r.health_grade = 2 → r.risk_category = some "Healthy Ecosystem") := by
  have hgen : generate_health_index sqrt clusters df =
      sortBy healthLE (score_stats clusters (district_stats sqrt df)) := rfl
  have hmapsnd : ((district_stats sqrt df).zip clusters).map Prod.snd = clusters :=
    List.map_snd_zip _ clusters (le_of_eq hlen)
  have hfin : clusters.toFinset = ({0, 1, 2} : Finset ℕ) := by
    ext x
    simp only [List.mem_toFinset, Finset.mem_insert, Finset.mem_singleton]
    constructor
    · intro hx
      have := hlt x hx
      omega
    · intro hx
      exact hsurj x (by omega)
  have hr3 : (cluster_rank ((district_stats sqrt df).zip clusters)).length = 3 := by
    have h1 := (sortBy_perm
      (fun a b => decide (clusterMeanVol ((district_stats sqrt df).zip clusters) a ≤
        clusterMeanVol ((district_stats sqrt df).zip clusters) b))
      ((((district_stats sqrt df).zip clusters).map Prod.snd).dedup)).length_eq
    show (sortBy _ ((((district_stats sqrt df).zip clusters).map Prod.snd).dedup)).length = 3
    rw [h1, hmapsnd, ← List.card_toFinset, hfin]
    rfl
  have hg0 : (0 : ℕ) < (cluster_rank ((district_stats sqrt df).zip clusters)).length := by
    omega
  have hg1 : (1 : ℕ) < (cluster_rank ((district_stats sqrt df).zip clusters)).length := by
    omega
  have hg2 : (2 : ℕ) < (cluster_rank ((district_stats sqrt df).zip clusters)).length := by
    omega
  have hsorted := cluster_rank_sorted ((district_stats sqrt df).zip clusters)
  have h01 := List.pairwise_iff_get.mp hsorted ⟨0, hg0⟩ ⟨1, hg1⟩ (by norm_num)
  have h12 := List.pairwise_iff_get.mp hsorted ⟨1, hg1⟩ ⟨2, hg2⟩ (by norm_num)
  refine ⟨?_, ?_, ?_⟩
  · rw [hgen, grade_mean_eq_clusterMean clusters _ 0 hg0,
      grade_mean_eq_clusterMean clusters _ 1 hg1]
    exact of_decide_eq_true h01
  · rw [hgen, grade_mean_eq_clusterMean clusters _ 1 hg1,
      grade_mean_eq_clusterMean clusters _ 2 hg2]
    exact of_decide_eq_true h12
  · intro r hr
    have hr' : r ∈ score_stats clusters (district_stats sqrt df) :=
      (sortBy_perm healthLE _).mem_iff.mp hr
    rcases List.mem_map.mp hr' with ⟨p, hp, hrp⟩
    have hcat : r.risk_category = label_map r.health_grade := by rw [← hrp]; rfl
    refine ⟨fun h0 => ?_, fun h1 => ?_, fun h2 => ?_⟩
    · rw [hcat, h0]; rfl
    · rw [hcat, h1]; rfl
    · rw [hcat, h2]; rfl

/-- C1 witness: three single-row districts with volumes 1, 2, 3 and
clusters `[0, 1, 2]` instantiate the grade-mean monotonicity. -/
theorem C1_cluster_grade_monotone_witness :
    grade_mean_total_vol (generate_health_index (fun q => q) [0, 1, 2]
        [⟨"S", "A", 1, 0⟩, ⟨"S", "B", 2, 0⟩, ⟨"S", "C", 3, 0⟩]) 0 ≤
      grade_mean_total_vol (generate_health_index (fun q => q) [0, 1, 2]
        [⟨"S", "A", 1, 0⟩, ⟨"S", "B", 2, 0⟩, ⟨"S", "C", 3, 0⟩]) 1 ∧
    grade_mean_total_vol (generate_health_index (fun q => q) [0, 1, 2]
        [⟨"S", "A", 1, 0⟩, ⟨"S", "B", 2, 0⟩, ⟨"S", "C", 3, 0⟩]) 1 ≤
      grade_mean_total_vol (generate_health_index (fun q => q) [0, 1, 2]
        [⟨"S", "A", 1, 0⟩, ⟨"S", "B", 2, 0⟩, ⟨"S", "C", 3, 0⟩]) 2 := by
  have h := C1_cluster_grade_monotone (fun q => q) [0, 1, 2]
    [⟨"S", "A", 1, 0⟩, ⟨"S", "B", 2, 0⟩, ⟨"S", "C", 3, 0⟩]
    (by decide) (by decide) (by intro c hc; interval_cases c <;> decide)
  exact ⟨h.1, h.2.1⟩
